import Mathlib

/-!
Verification of the nullability inference engine in
`clang-tools-extra/clang-tidy/objc/NullabilityAnnotatorCheck.cpp`.

The four functions of the source file — `getInnermostExpr`,
`isSomeKindOfNil`, `getNullabilityOfReturnStmt`,
`getWeakestNullabilityForReturnStatements`,
`returnStatementsForCanonicalDecl`, the `ReturnStatementCollector`
visitor and `NullabilityAnnotatorCheck::check` — are embedded below as
executable Lean definitions over a model of the clang AST.  Clang
library facilities that the file uses but does not define
(`NullabilityKind`, `hasWeakerNullability`, `Expr::isNullPointerConstant`,
`Expr::IgnoreCasts`, `RecursiveASTVisitor`, `Decl::hasBody`,
`Decl::redecls`) are modelled from the specification and marked as such
in their doc comments.
-/

namespace ClangObjc

/-- Modelled from the spec: clang's `NullabilityKind` (the spec's
"Nullability Verdict"), three ordered states; the "no evidence" state is
represented by `Option NullabilityKind` at the merger's boundary. -/
inductive NullabilityKind where
  | NonNull
  | Nullable
  | Unspecified
deriving DecidableEq, BEq, Repr, Fintype

/-- Modelled from the spec: the weakness rank of a verdict.  The spec's
weakness order is `NonNull` (strongest) → `Unspecified` → `Nullable`
(weakest); a larger rank means a weaker verdict. -/
def nullabilityWeakness : NullabilityKind → Nat
  | NullabilityKind.NonNull => 0
  | NullabilityKind.Unspecified => 1
  | NullabilityKind.Nullable => 2

/-- Modelled from the spec: clang's `hasWeakerNullability` from
`clang/Basic/Specifiers.h` (not part of the sources): `L` is weaker than
`R` when it sits further toward `Nullable` in the weakness order. -/
def hasWeakerNullability (L R : NullabilityKind) : Bool :=
  decide (nullabilityWeakness R < nullabilityWeakness L)

/-- Modelled from the spec: clang's `Expr::NullPointerConstantKind`.
Only the distinction "not a null pointer constant" versus the particular
kinds matters to the sources. -/
inductive NullPointerConstantKind where
  | NPCK_NotNull
  | NPCK_ZeroLiteral
  | NPCK_GNUNull
  | NPCK_CXX11_nullptr
deriving DecidableEq, BEq, Repr

/-- The expression forms the source file discriminates between (via
`dyn_cast` chains): literals, the null tokens, message sends, calls,
declaration references, and the value-preserving wrapper nodes that
`getInnermostExpr` strips.  Nullability annotations carried by types are
modelled as the `Option NullabilityKind` resulting from clang's
`QualType::getNullability` on the relevant type. -/
inductive Expr where
  | IntegerLiteral (value : Nat)
  | StringLiteral (str : String)
  | ObjCStringLiteral (str : String)
  | GNUNullExpr
  | CXXNullPtrLiteralExpr
  | ObjCMessageExpr (callReturnTypeNullability : Option NullabilityKind)
  | DeclRefExpr (typeNullability : Option NullabilityKind)
  | CallExpr (callReturnTypeNullability : Option NullabilityKind)
  | ImplicitCastExpr (sub : Expr)
  | CStyleCastExpr (sub : Expr)
  | ExprWithCleanups (sub : Expr)
  | MaterializeTemporaryExpr (sub : Expr)
  | OpaqueExpr
deriving DecidableEq, BEq, Repr

/-- The wrapper nodes: the value-preserving nodes that the spec's
"innermost expression" extraction strips. -/
def Expr.isWrapper : Expr → Bool
  | Expr.ImplicitCastExpr _ => true
  | Expr.CStyleCastExpr _ => true
  | Expr.ExprWithCleanups _ => true
  | Expr.MaterializeTemporaryExpr _ => true
  | _ => false

/-- Modelled from the spec: clang's `Expr::IgnoreCasts` — strip
surrounding value-preserving wrappers (casts, implicit conversions,
cleanup scopes, temporary materialization) until a fixed point. -/
def Expr.ignoreCasts : Expr → Expr
  | Expr.ImplicitCastExpr s => s.ignoreCasts
  | Expr.CStyleCastExpr s => s.ignoreCasts
  | Expr.ExprWithCleanups s => s.ignoreCasts
  | Expr.MaterializeTemporaryExpr s => s.ignoreCasts
  | e => e

/-- Modelled from the spec: clang's `Expr::IgnoreImpCasts` — strip
implicit conversions until a fixed point. -/
def Expr.ignoreImpCasts : Expr → Expr
  | Expr.ImplicitCastExpr s => s.ignoreImpCasts
  | e => e

/-- Modelled from the spec: the `while (ImplicitCastExpr)` loop closing
`getInnermostExpr`, with clang's `CastExpr::getSubExprAsWritten`
(retrieving the written operand through implicitly materialized
temporaries) inlined into the pattern. -/
def stripImplicitCastsAsWritten : Expr → Expr
  | Expr.ImplicitCastExpr (Expr.MaterializeTemporaryExpr t) =>
      stripImplicitCastsAsWritten t
  | Expr.ImplicitCastExpr s => stripImplicitCastsAsWritten s
  | e => e

/-- The number of wrapper nodes around an expression; bounds the
recursion depth of `getInnermostExpr`. -/
def Expr.wrapperDepth : Expr → Nat
  | Expr.ImplicitCastExpr s => s.wrapperDepth + 1
  | Expr.CStyleCastExpr s => s.wrapperDepth + 1
  | Expr.ExprWithCleanups s => s.wrapperDepth + 1
  | Expr.MaterializeTemporaryExpr s => s.wrapperDepth + 1
  | _ => 0

/-- The last two steps of `getInnermostExpr` (source lines 56-61): peel
one `MaterializeTemporaryExpr`, then run the `while (ImplicitCastExpr)`
loop. -/
def gieFinish (e2 : Expr) : Expr :=
  let e3 :=
    match e2 with
    | Expr.MaterializeTemporaryExpr s => s
    | _ => e2
  stripImplicitCastsAsWritten e3

/-- Embedding of `getInnermostExpr` (source lines 42-63).  The source
recurses on `E->IgnoreImpCasts()` when the stripped expression is still
an implicit cast; that recursion is well founded because each step
removes at least one wrapper, which the embedding accounts for with a
structural fuel argument set to the wrapper depth of the expression (the
branch is in fact unreachable once `IgnoreCasts` has run, see
`getInnermostExpr_eq_ignoreCasts`, so exhausted fuel merely skips a dead
branch). -/
def getInnermostExprGo : Nat → Expr → Expr
  | Nat.zero, Exp =>
    let e0 := (Exp.ignoreCasts).ignoreImpCasts
    let e1 :=
      match e0 with
      | Expr.ExprWithCleanups s => s
      | _ => e0
    gieFinish e1
  | Nat.succ fuelRest, Exp =>
    let e0 := (Exp.ignoreCasts).ignoreImpCasts
    let e1 :=
      match e0 with
      | Expr.ExprWithCleanups s => s
      | _ => e0
    let e2 :=
      match e1 with
      | Expr.ImplicitCastExpr s =>
          getInnermostExprGo fuelRest (Expr.ignoreImpCasts s)
      | _ => e1
    gieFinish e2

/-- Embedding of `getInnermostExpr` at its natural signature. -/
def getInnermostExpr (Exp : Expr) : Expr :=
  getInnermostExprGo (Exp.wrapperDepth) Exp

/-- A return statement: its optional returned expression (source:
`ReturnStmt::getRetValue`, null for a bare `return;`). -/
structure ReturnStmt where
  retValue : Option Expr
deriving DecidableEq, BEq, Repr

/-- The statement forms the collector's traversal walks: returns,
compounds, conditionals, loops, expression statements, and nested
block/closure literals (which carry a body belonging to a different
declaration). -/
inductive Stmt where
  | ret (RS : ReturnStmt)
  | compound (stmts : List Stmt)
  | ifStmt (cond : Expr) (thenBranch : Stmt) (elseBranch : Option Stmt)
  | whileStmt (cond : Expr) (body : Stmt)
  | forStmt (body : Stmt)
  | exprStmt (e : Expr)
  | blockLiteral (closureBody : Stmt)

/-- The AST context: the syntax tree owned by the host compiler,
borrowed read-only by the check. -/
structure ASTContext where
  translationUnit : List Stmt

/-- Modelled from the spec: clang's `Expr::isNullPointerConstant` (the
host language's pointer-constant-classification rule): a literal zero, a
GNU `__null`, a C++ `nullptr`, or a cast of one of these. -/
def Expr.isNullPointerConstant : Expr → NullPointerConstantKind
  | Expr.IntegerLiteral 0 => NullPointerConstantKind.NPCK_ZeroLiteral
  | Expr.GNUNullExpr => NullPointerConstantKind.NPCK_GNUNull
  | Expr.CXXNullPtrLiteralExpr => NullPointerConstantKind.NPCK_CXX11_nullptr
  | Expr.ImplicitCastExpr s => s.isNullPointerConstant
  | Expr.CStyleCastExpr s => s.isNullPointerConstant
  | _ => NullPointerConstantKind.NPCK_NotNull

/-- Embedding of `isSomeKindOfNil` (source lines 114-132).  The pointer
argument is modelled as `Option Expr`; the `ASTContext` argument is kept
for signature fidelity. -/
def isSomeKindOfNil (E : Option Expr) (C : ASTContext) : Bool :=
  match E with
  | none => false
  | some e =>
    let IL : Option Nat :=
      match e with
      | Expr.IntegerLiteral v => some v
      | _ => none
    let NullPtrConstKind := e.isNullPointerConstant
    (NullPtrConstKind != NullPointerConstantKind.NPCK_NotNull)
      || (match IL with
          | some v => v == 0
          | none => false)
      || (match e with
          | Expr.GNUNullExpr => true
          | _ => false)
      || (match e with
          | Expr.CXXNullPtrLiteralExpr => true
          | _ => false)

/-- The `isa<ObjCStringLiteral>` test from the source. -/
def isObjCStringLiteral : Expr → Bool
  | Expr.ObjCStringLiteral _ => true
  | _ => false

/-- Embedding of `getNullabilityOfReturnStmt` (source lines 149-220).
The nullable `ReturnStmt *` parameter is `Option ReturnStmt`; the
diagnostic write to `llvm::errs()` on a null pointer is captured
separately by `classifierErrs`. -/
def getNullabilityOfReturnStmt (RS : Option ReturnStmt) (Ctx : ASTContext) :
    NullabilityKind :=
  match RS with
  | none => NullabilityKind.Unspecified
  | some RSval =>
    match RSval.retValue with
    | none => NullabilityKind.Unspecified
    | some RV =>
      let RVIgnoringCasts := getInnermostExpr RV
      if isSomeKindOfNil (some RVIgnoringCasts) Ctx || isSomeKindOfNil (some RV) Ctx then
        NullabilityKind.Nullable
      else if isObjCStringLiteral RV || isObjCStringLiteral RVIgnoringCasts then
        NullabilityKind.NonNull
      else
        let OME : Option (Option NullabilityKind) :=
          match RVIgnoringCasts with
          | Expr.ObjCMessageExpr nk => some nk
          | _ => none
        match OME with
        | some (some nk) => nk
        | _ =>
          let DRE : Option (Option NullabilityKind) :=
            match RVIgnoringCasts with
            | Expr.DeclRefExpr nk => some nk
            | _ => none
          match DRE with
          | some (some nk) => nk
          | _ =>
            let CE : Option (Option NullabilityKind) :=
              match RVIgnoringCasts with
              | Expr.CallExpr nk => some nk
              | _ => none
            match CE with
            | some (some nk) => nk
            | _ => NullabilityKind.Unspecified

/-- The diagnostic lines `getNullabilityOfReturnStmt` writes to the
process error stream (source lines 150-155): one recoverable-anomaly
message when handed a null pointer, nothing otherwise. -/
def classifierErrs : Option ReturnStmt → List String
  | none =>
      ["`getNullabilityOfReturnStmt` expected a `ReturnStmt` pointer. Instead, got `nullptr`."]
  | some _ => []

/-- The analysis-visible state surrounding one classifier call: the
borrowed syntax tree and the process error stream. -/
structure AnalysisState where
  ctx : ASTContext
  errs : List String

/-- `getNullabilityOfReturnStmt` with its effect on the surrounding
state made explicit: the verdict, together with the state after the
call (the only write the source performs is the error-stream log). -/
def getNullabilityOfReturnStmtS (RS : Option ReturnStmt) (st : AnalysisState) :
    NullabilityKind × AnalysisState :=
  (getNullabilityOfReturnStmt RS st.ctx,
   { st with errs := st.errs ++ classifierErrs RS })

/-- Embedding of the `ReturnStatementCollector` visitor (source lines
66-84): its only state is the vector of visited return statements. -/
structure ReturnStatementCollector where
  Visited : List ReturnStmt := []

/-- From the source: `VisitReturnStmt` pushes the visited return
statement onto the vector and continues the traversal. -/
def ReturnStatementCollector.VisitReturnStmt
    (c : ReturnStatementCollector) (RS : ReturnStmt) : ReturnStatementCollector :=
  { Visited := c.Visited ++ [RS] }

/-- From the source: `getVisited` returns the visited nodes. -/
def ReturnStatementCollector.getVisited
    (c : ReturnStatementCollector) : List ReturnStmt :=
  c.Visited

mutual

/-- Modelled from the spec: `RecursiveASTVisitor::TraverseStmt` — a
single depth-first traversal of the statement tree in source order,
calling `VisitReturnStmt` on every return statement encountered,
including those nested inside conditionals, loops and nested blocks, but
not descending into nested block/closure literals (their exits belong to
a different declaration). -/
def ReturnStatementCollector.TraverseStmt :
    ReturnStatementCollector → Stmt → ReturnStatementCollector
  | c, Stmt.ret RS => c.VisitReturnStmt RS
  | c, Stmt.compound stmts => ReturnStatementCollector.TraverseStmtList c stmts
  | c, Stmt.ifStmt _ thenBranch elseBranch =>
    match elseBranch with
    | some e => (c.TraverseStmt thenBranch).TraverseStmt e
    | none => c.TraverseStmt thenBranch
  | c, Stmt.whileStmt _ body => c.TraverseStmt body
  | c, Stmt.forStmt body => c.TraverseStmt body
  | c, Stmt.exprStmt _ => c
  | c, Stmt.blockLiteral _ => c

/-- Traversal of a statement list in source order. -/
def ReturnStatementCollector.TraverseStmtList :
    ReturnStatementCollector → List Stmt → ReturnStatementCollector
  | c, [] => c
  | c, s :: rest =>
    ReturnStatementCollector.TraverseStmtList (c.TraverseStmt s) rest

end

/-- A function or Objective-C method declaration, as queried by the
source: qualified name, its own body (if this declaration is a
definition), the canonical-declaration flag, and the ordered
redeclaration list. -/
inductive FunctionDecl where
  | mk (name : String) (body : Option Stmt) (canonical : Bool)
       (redeclarations : List FunctionDecl)

/-- From clang's `Decl::getQualifiedNameAsString`. -/
def FunctionDecl.getQualifiedNameAsString : FunctionDecl → String
  | FunctionDecl.mk n _ _ _ => n

/-- The declaration's own body, when this declaration is a definition. -/
def FunctionDecl.getBody : FunctionDecl → Option Stmt
  | FunctionDecl.mk _ b _ _ => b

/-- Modelled from the spec: the has-body query — whether the declaration
has its own body ("If the canonical declaration has its own body ⇒
collect exit points only from that body"). -/
def FunctionDecl.hasBody (d : FunctionDecl) : Bool :=
  d.getBody.isSome

/-- From clang's `Decl::isCanonicalDecl`: the deduplication anchor among
the redeclarations. -/
def FunctionDecl.isCanonicalDecl : FunctionDecl → Bool
  | FunctionDecl.mk _ _ c _ => c

/-- Modelled from the spec: `Decl::redecls` — the ordered list of
redeclarations of the entity. -/
def FunctionDecl.redecls : FunctionDecl → List FunctionDecl
  | FunctionDecl.mk _ _ _ rs => rs

/-- Modelled from the spec: `RecursiveASTVisitor::TraverseDecl` on a
function or method declaration — traverses the declaration's body when
this declaration is a definition, and nothing otherwise. -/
def ReturnStatementCollector.TraverseDecl
    (c : ReturnStatementCollector) (d : FunctionDecl) : ReturnStatementCollector :=
  match d.getBody with
  | some b => c.TraverseStmt b
  | none => c

/-- Embedding of `returnStatementsForCanonicalDecl` (source lines
253-271): pool all redeclarations when the declaration has no body of
its own, visit the declaration itself when it is a canonical definition,
and collect nothing otherwise. -/
def returnStatementsForCanonicalDecl (DeclOfType : FunctionDecl) :
    List ReturnStmt :=
  let Visitor : ReturnStatementCollector := {}
  let _Name := DeclOfType.getQualifiedNameAsString
  let HasBody := DeclOfType.hasBody
  let IsCanonical := DeclOfType.isCanonicalDecl
  let Visitor :=
    if !HasBody then
      DeclOfType.redecls.foldl (fun v R => v.TraverseDecl R) Visitor
    else if IsCanonical then
      Visitor.TraverseDecl DeclOfType
    else
      Visitor
  Visitor.getVisited

/-- Embedding of `getWeakestNullabilityForReturnStatements` (source
lines 231-246): `nullopt` when no return statements were found,
otherwise a left fold starting at `NonNull` that replaces the
accumulator whenever a return statement classifies weaker. -/
def getWeakestNullabilityForReturnStatements
    (ReturnStatements : List ReturnStmt) (Ctx : ASTContext) :
    Option NullabilityKind :=
  if ReturnStatements.isEmpty then
    none
  else
    some (ReturnStatements.foldl
      (fun NK RS =>
        let NRS := getNullabilityOfReturnStmt (some RS) Ctx
        if hasWeakerNullability NRS NK then NRS else NK)
      NullabilityKind.NonNull)

/-- The bound nodes of one `MatchFinder::MatchResult`: the source reads
the `"vd"`, `"fd"` and `"omd"` bindings (the `"opd"` binding is never
read).  Global variables are only ever printed by name, so the bound
`VarDecl` is modelled by its qualified name. -/
structure MatchResult where
  vd : Option String
  fd : Option FunctionDecl
  omd : Option FunctionDecl

/-- The structured content of each diagnostic line
`NullabilityAnnotatorCheck::check` writes to the error stream. -/
inductive CheckReport where
  | foundGlobalVariable (name : String)
  | foundPrototype (name : String)
  | weakestNullability (name : String) (nk : NullabilityKind)
  | noReturnStmts (name : String)
deriving DecidableEq, BEq, Repr

/-- Whether a report line is the "has no return stmts." marker. -/
def CheckReport.isNoReturnMarker : CheckReport → Bool
  | CheckReport.noReturnStmts _ => true
  | _ => false

/-- Embedding of `NullabilityAnnotatorCheck::check` (source lines
393-439), with the diagnostic stream writes returned as structured
reports.  The locals `HasBody` and `IsCanonical` are initialized to
`false` and — exactly as in the source — never assigned afterwards. -/
def NullabilityAnnotatorCheck.check (Result : MatchResult) (Ctx : ASTContext) :
    List CheckReport :=
  let VD := Result.vd
  let FD := Result.fd
  let OMD := Result.omd
  let Name0 := "<unnamed>"
  let (firstReports, Name, ReturnStatements) :
      List CheckReport × String × List ReturnStmt :=
    match VD, FD, OMD with
    | some v, _, _ => ([CheckReport.foundGlobalVariable v], Name0, [])
    | none, some fdecl, _ =>
      ([], fdecl.getQualifiedNameAsString, returnStatementsForCanonicalDecl fdecl)
    | none, none, some omdecl =>
      ([], omdecl.getQualifiedNameAsString, returnStatementsForCanonicalDecl omdecl)
    | none, none, none => ([], Name0, [])
  let HasBody := false
  let IsCanonical := false
  let secondReports :=
    if FD.isSome || OMD.isSome then
      if !HasBody && IsCanonical then
        [CheckReport.foundPrototype Name]
      else
        match getWeakestNullabilityForReturnStatements ReturnStatements Ctx with
        | some WeakestNullability =>
          [CheckReport.weakestNullability Name WeakestNullability]
        | none =>
          if HasBody then [CheckReport.noReturnStmts Name] else []
    else
      []
  firstReports ++ secondReports

/-! ### Specification-side definitions

These definitions follow the words of the specification rather than the
source; they exist to be compared against the embedded code. -/

mutual

/-- Specification-side description of the Exit-Path Collector (spec
§4.2): the return statements of a body in depth-first source order,
including those nested inside conditionals, loops and nested blocks,
excluding those inside nested function/closure literals. -/
def specReturns : Stmt → List ReturnStmt
  | Stmt.ret RS => [RS]
  | Stmt.compound stmts => specReturnsList stmts
  | Stmt.ifStmt _ thenBranch elseBranch =>
    specReturns thenBranch ++
      (match elseBranch with
       | some e => specReturns e
       | none => [])
  | Stmt.whileStmt _ body => specReturns body
  | Stmt.forStmt body => specReturns body
  | Stmt.exprStmt _ => []
  | Stmt.blockLiteral _ => []

/-- Specification-side description on a statement list. -/
def specReturnsList : List Stmt → List ReturnStmt
  | [] => []
  | s :: rest => specReturns s ++ specReturnsList rest

end

/-- The exit points contributed by one declaration's own body (empty
when the declaration is not a definition). -/
def declBodyReturns (d : FunctionDecl) : List ReturnStmt :=
  match d.getBody with
  | some b => specReturns b
  | none => []

/-- The exit points pooled, in declaration order, from the bodies of a
redeclaration list (spec §4.3). -/
def pooledRedeclReturns : List FunctionDecl → List ReturnStmt
  | [] => []
  | d :: rest => declBodyReturns d ++ pooledRedeclReturns rest

/-- The binary weakest-wins combination the merger's fold performs at
each step: keep the weaker of the accumulator and the new verdict. -/
def weakerOf (a k : NullabilityKind) : NullabilityKind :=
  if hasWeakerNullability k a then k else a

/-- The claim's hypothesis on a returned expression: a literal zero, a
null-pointer constant, or a recognized null token. -/
def zeroOrNullToken (e : Expr) : Bool :=
  (match e with
   | Expr.IntegerLiteral 0 => true
   | _ => false)
    || (e.isNullPointerConstant != NullPointerConstantKind.NPCK_NotNull)
    || (match e with
        | Expr.GNUNullExpr => true
        | Expr.CXXNullPtrLiteralExpr => true
        | _ => false)

/-! ### Concrete inputs used by witnesses and counterexamples -/

/-- An empty AST context. -/
def ctx0 : ASTContext := { translationUnit := [] }

/-- `return 0;` — a nil-valued exit point. -/
def rsNilLit : ReturnStmt := { retValue := some (Expr.IntegerLiteral 0) }

/-- `return @"ok";` — a provably present exit point. -/
def rsObjCStr : ReturnStmt := { retValue := some (Expr.ObjCStringLiteral "ok") }

/-- `return "plain";` — a plain C string literal exit point. -/
def rsCStr : ReturnStmt := { retValue := some (Expr.StringLiteral "plain") }

/-- A body consisting of a single `return 0;`. -/
def bodyRetNil : Stmt := Stmt.compound [Stmt.ret rsNilLit]

/-- A body consisting of a single `return @"ok";`. -/
def bodyRetStr : Stmt := Stmt.compound [Stmt.ret rsObjCStr]

/-- A redeclaration that carries a nil-returning body. -/
def redeclWithBody : FunctionDecl :=
  FunctionDecl.mk "f" (some bodyRetNil) true []

/-- An interior, non-canonical, prototype-only redeclaration whose
redeclaration chain contains a definition. -/
def interiorProto : FunctionDecl :=
  FunctionDecl.mk "f" none false [redeclWithBody]

/-- A canonical declaration with its own (nil-returning) body, whose
redeclaration list also contains a different body. -/
def canonWithBody : FunctionDecl :=
  FunctionDecl.mk "h" (some bodyRetNil) true
    [FunctionDecl.mk "h" (some bodyRetStr) false []]

/-- A canonical declaration without its own body and with two
redeclarations carrying bodies. -/
def canonNoBody : FunctionDecl :=
  FunctionDecl.mk "p" none true
    [FunctionDecl.mk "p" none true [],
     FunctionDecl.mk "p" (some bodyRetStr) false [],
     FunctionDecl.mk "p" (some bodyRetNil) false []]

/-- A canonical definition whose body contains no return statement. -/
def declNoReturns : FunctionDecl :=
  FunctionDecl.mk "g" (some (Stmt.compound [Stmt.exprStmt Expr.OpaqueExpr])) true []

/-- The match result handing `declNoReturns` to the driver. -/
def resNoReturns : MatchResult :=
  { vd := none, fd := some declNoReturns, omd := none }

/-- An analysis state over the empty context. -/
def st0 : AnalysisState := { ctx := ctx0, errs := [] }

/-- A second analysis state over the same context with a non-empty error
stream. -/
def st1 : AnalysisState := { ctx := ctx0, errs := ["earlier diagnostic"] }

/-! ## Helper lemmas -/

/-- `IgnoreCasts` reaches a fixed point: its result is never a wrapper
node. -/
theorem isWrapper_ignoreCasts (e : Expr) : (Expr.ignoreCasts e).isWrapper = false := by
  induction e with
  | ImplicitCastExpr s ih => simpa [Expr.ignoreCasts] using ih
  | CStyleCastExpr s ih => simpa [Expr.ignoreCasts] using ih
  | ExprWithCleanups s ih => simpa [Expr.ignoreCasts] using ih
  | MaterializeTemporaryExpr s ih => simpa [Expr.ignoreCasts] using ih
  | _ => simp [Expr.ignoreCasts, Expr.isWrapper]

/-- `IgnoreImpCasts` is the identity on non-wrapper expressions. -/
theorem ignoreImpCasts_of_not_wrapper (e : Expr) (h : e.isWrapper = false) :
    Expr.ignoreImpCasts e = e := by
  cases e <;> simp_all [Expr.isWrapper, Expr.ignoreImpCasts]

/-- The closing implicit-cast loop is the identity on non-wrapper
expressions. -/
theorem stripAsWritten_of_not_wrapper (e : Expr) (h : e.isWrapper = false) :
    stripImplicitCastsAsWritten e = e := by
  cases e <;> simp_all [Expr.isWrapper, stripImplicitCastsAsWritten]

/-- On any fuel, `getInnermostExprGo` computes `IgnoreCasts`: once the
leading `IgnoreCasts` has run, every later branch of the source function
is the identity. -/
theorem getInnermostExprGo_eq (fuel : Nat) (e : Expr) :
    getInnermostExprGo fuel e = e.ignoreCasts := by
  have hclean := isWrapper_ignoreCasts e
  cases fuel <;> cases h : e.ignoreCasts <;>
    simp_all [getInnermostExprGo, gieFinish, Expr.isWrapper,
      Expr.ignoreImpCasts, stripImplicitCastsAsWritten]

/-- `getInnermostExpr` computes the innermost expression: the fixed
point of wrapper stripping. -/
theorem getInnermostExpr_eq_ignoreCasts (e : Expr) :
    getInnermostExpr e = e.ignoreCasts :=
  getInnermostExprGo_eq _ e

/-! The collector pushes exactly the spec-ordered return statements:
joint statement for statements and statement lists. -/

mutual

theorem traverseStmt_visited : ∀ (c : ReturnStatementCollector) (s : Stmt),
    (c.TraverseStmt s).Visited = c.Visited ++ specReturns s
  | c, Stmt.ret RS => by
    simp [ReturnStatementCollector.TraverseStmt,
      ReturnStatementCollector.VisitReturnStmt, specReturns]
  | c, Stmt.compound stmts => by
    simp [ReturnStatementCollector.TraverseStmt, specReturns,
      traverseStmtList_visited c stmts]
  | c, Stmt.ifStmt cond thenBranch none => by
    simp [ReturnStatementCollector.TraverseStmt, specReturns,
      traverseStmt_visited c thenBranch]
  | c, Stmt.ifStmt cond thenBranch (some e) => by
    simp [ReturnStatementCollector.TraverseStmt, specReturns,
      traverseStmt_visited (c.TraverseStmt thenBranch) e,
      traverseStmt_visited c thenBranch]
  | c, Stmt.whileStmt cond body => by
    simp [ReturnStatementCollector.TraverseStmt, specReturns,
      traverseStmt_visited c body]
  | c, Stmt.forStmt body => by
    simp [ReturnStatementCollector.TraverseStmt, specReturns,
      traverseStmt_visited c body]
  | c, Stmt.exprStmt e => by
    simp [ReturnStatementCollector.TraverseStmt, specReturns]
  | c, Stmt.blockLiteral b => by
    simp [ReturnStatementCollector.TraverseStmt, specReturns]

theorem traverseStmtList_visited : ∀ (c : ReturnStatementCollector) (ss : List Stmt),
    (ReturnStatementCollector.TraverseStmtList c ss).Visited =
      c.Visited ++ specReturnsList ss
  | c, [] => by
    simp [ReturnStatementCollector.TraverseStmtList, specReturnsList]
  | c, s :: rest => by
    simp [ReturnStatementCollector.TraverseStmtList, specReturnsList,
      traverseStmtList_visited (c.TraverseStmt s) rest,
      traverseStmt_visited c s]

end

/-- Traversing one declaration contributes exactly its own body's
spec-ordered return statements. -/
theorem traverseDecl_visited (c : ReturnStatementCollector) (d : FunctionDecl) :
    (c.TraverseDecl d).Visited = c.Visited ++ declBodyReturns d := by
  cases h : d.getBody <;>
    simp [ReturnStatementCollector.TraverseDecl, declBodyReturns, h,
      traverseStmt_visited]

/-- Folding the traversal over a declaration list pools the bodies'
return statements in declaration order. -/
theorem traverseDecls_visited (ds : List FunctionDecl) (c : ReturnStatementCollector) :
    (ds.foldl (fun v R => v.TraverseDecl R) c).Visited =
      c.Visited ++ pooledRedeclReturns ds := by
  induction ds generalizing c with
  | nil => simp [pooledRedeclReturns]
  | cons d rest ih =>
    simp [List.foldl_cons, pooledRedeclReturns, ih, traverseDecl_visited]

/-! ## Claim theorems -/

/-- C7: when `getNullabilityOfReturnStmt` is given a null return
statement pointer, or a return statement carrying no expression (a bare
`return;`), it returns `Unspecified` rather than failing — as a total
function it cannot abort the analysis, and the null pointer is merely
logged. -/
theorem nullInput_returns_unspecified :
    (∀ st : AnalysisState,
      (getNullabilityOfReturnStmtS none st).fst = NullabilityKind.Unspecified) ∧
    (∀ Ctx : ASTContext,
      getNullabilityOfReturnStmt none Ctx = NullabilityKind.Unspecified) ∧
    (∀ Ctx : ASTContext,
      getNullabilityOfReturnStmt (some { retValue := none }) Ctx =
        NullabilityKind.Unspecified) :=
  ⟨fun _ => rfl, fun _ => rfl, fun _ => rfl⟩

/-- C9: the Expression Classifier is deterministic and pure —
classifying an actual return statement leaves the analysis state (the
syntax tree and the error stream) unchanged, classifying the same
return statement twice yields the same verdict, and the verdict depends
only on the return statement and the AST context, not on any other
state. -/
theorem classifier_pure (rs : ReturnStmt) (st : AnalysisState) :
    (getNullabilityOfReturnStmtS (some rs) st).snd = st ∧
    (getNullabilityOfReturnStmtS (some rs)
        ((getNullabilityOfReturnStmtS (some rs) st).snd)).fst =
      (getNullabilityOfReturnStmtS (some rs) st).fst ∧
    (∀ st2 : AnalysisState, st2.ctx = st.ctx →
      (getNullabilityOfReturnStmtS (some rs) st2).fst =
        (getNullabilityOfReturnStmtS (some rs) st).fst) := by
  refine ⟨?_, rfl, ?_⟩
  · simp [getNullabilityOfReturnStmtS, classifierErrs]
  · intro st2 h
    simp [getNullabilityOfReturnStmtS, h]

/-- Witness for C9 at a concrete return statement and two concrete
states that share the same AST context. -/
theorem classifier_pure_witness :
    (getNullabilityOfReturnStmtS (some rsNilLit) st1).fst =
      (getNullabilityOfReturnStmtS (some rsNilLit) st0).fst :=
  (classifier_pure rsNilLit st0).2.2 st1 rfl

/-- C10: the only string-literal kind the classifier recognizes as
`NonNull` is the Objective-C string literal; a returned plain C string
literal (no annotation, not a call, not a declaration reference)
classifies as `Unspecified`, not `NonNull`. -/
theorem only_objc_string_literals_nonnull (s : String) (Ctx : ASTContext) :
    getNullabilityOfReturnStmt
        (some { retValue := some (Expr.ObjCStringLiteral s) }) Ctx =
      NullabilityKind.NonNull ∧
    getNullabilityOfReturnStmt
        (some { retValue := some (Expr.StringLiteral s) }) Ctx =
      NullabilityKind.Unspecified := by
  constructor <;>
    simp [getNullabilityOfReturnStmt, getInnermostExpr_eq_ignoreCasts,
      Expr.ignoreCasts, isSomeKindOfNil, Expr.isNullPointerConstant,
      isObjCStringLiteral] <;>
    decide

/-- C4: for every body, the collector records exactly the return
statements of that body in depth-first source order — those nested in
conditionals, loops and nested blocks included, those inside nested
block/closure literals excluded. -/
theorem collector_records_exactly (body : Stmt) :
    (ReturnStatementCollector.TraverseStmt {} body).getVisited =
      specReturns body ∧
    (∀ closureBody : Stmt,
      (ReturnStatementCollector.TraverseStmt {}
          (Stmt.blockLiteral closureBody)).getVisited = []) := by
  constructor
  · simp [ReturnStatementCollector.getVisited, traverseStmt_visited]
  · intro closureBody
    simp [ReturnStatementCollector.getVisited, traverseStmt_visited,
      specReturns]

/-- C2: for a canonical declaration, the aggregator collects exit
points only from the declaration's own body when it has one, and
otherwise pools, in declaration order, the exit points of every
redeclaration that has a body; each body's exit points appear exactly
once in the result. -/
theorem aggregator_canonical (d : FunctionDecl) (hc : d.isCanonicalDecl = true) :
    returnStatementsForCanonicalDecl d =
      match d.getBody with
      | some b => specReturns b
      | none => pooledRedeclReturns d.redecls := by
  cases hb : d.getBody with
  | some b =>
    simp [returnStatementsForCanonicalDecl, FunctionDecl.hasBody, hb, hc,
      ReturnStatementCollector.getVisited, traverseDecl_visited,
      declBodyReturns]
  | none =>
    simp [returnStatementsForCanonicalDecl, FunctionDecl.hasBody, hb,
      ReturnStatementCollector.getVisited, traverseDecls_visited]

/-- Witness for C2: a canonical declaration with its own nil-returning
body, whose redeclaration list carries a different body, yields exactly
its own body's single return statement. -/
theorem aggregator_canonical_witness :
    returnStatementsForCanonicalDecl canonWithBody = [rsNilLit] := by
  simpa [canonWithBody, FunctionDecl.getBody, bodyRetNil, specReturns,
    specReturnsList] using aggregator_canonical canonWithBody rfl

/-- C5 counterexample: an interior, non-canonical, prototype-only
redeclaration whose chain carries a definition does not get an empty
sequence from the aggregator — it pools the redeclaration bodies
instead. -/
theorem interiorProto_counterexample :
    interiorProto.isCanonicalDecl = false ∧
    interiorProto.hasBody = false ∧
    (returnStatementsForCanonicalDecl interiorProto).isEmpty = false ∧
    returnStatementsForCanonicalDecl interiorProto = [rsNilLit] := by
  refine ⟨rfl, rfl, ?_, ?_⟩ <;> decide

/-- C5 amended: a declaration that is neither canonical nor has a body
is routed through the same pooling branch as a canonical bodiless
declaration — it returns the pooled exit points of its redeclarations'
bodies, which is the empty sequence whenever no redeclaration has a
body. -/
theorem aggregator_interior_pools (d : FunctionDecl)
    (h1 : d.isCanonicalDecl = false) (h2 : d.getBody = none) :
    returnStatementsForCanonicalDecl d = pooledRedeclReturns d.redecls ∧
    ((∀ r ∈ d.redecls, r.getBody = none) →
      returnStatementsForCanonicalDecl d = []) := by
  have hpool : returnStatementsForCanonicalDecl d = pooledRedeclReturns d.redecls := by
    simp [returnStatementsForCanonicalDecl, FunctionDecl.hasBody, h2,
      ReturnStatementCollector.getVisited, traverseDecls_visited]
  refine ⟨hpool, fun hall => ?_⟩
  rw [hpool]
  have hgen : ∀ ds : List FunctionDecl, (∀ r ∈ ds, r.getBody = none) →
      pooledRedeclReturns ds = [] := by
    intro ds
    induction ds with
    | nil => intro _; rfl
    | cons r rest ih =>
      intro h
      have hr : r.getBody = none := h r (List.mem_cons_self r rest)
      have hrest : ∀ x ∈ rest, x.getBody = none := fun x hx =>
        h x (List.mem_cons_of_mem r hx)
      simp [pooledRedeclReturns, declBodyReturns, hr, ih hrest]
  exact hgen d.redecls hall

/-- Witness for C5's amended statement at the concrete interior
prototype-only redeclaration. -/
theorem aggregator_interior_pools_witness :
    returnStatementsForCanonicalDecl interiorProto =
      pooledRedeclReturns interiorProto.redecls :=
  (aggregator_interior_pools interiorProto rfl rfl).1

/-! Lemmas about the merger's weakest-wins fold. -/

/-- The merger's fold step is the binary weakest-wins combination
applied to the classifications. -/
theorem mergerFold_eq (l : List ReturnStmt) (Ctx : ASTContext) :
    l.foldl
      (fun NK RS =>
        let NRS := getNullabilityOfReturnStmt (some RS) Ctx
        if hasWeakerNullability NRS NK then NRS else NK)
      NullabilityKind.NonNull =
    (l.map (fun RS => getNullabilityOfReturnStmt (some RS) Ctx)).foldl
      weakerOf NullabilityKind.NonNull := by
  rw [List.foldl_map]
  rfl

/-- `weakerOf` never strengthens either argument (finite check). -/
theorem weakerOf_weakness : ∀ a k : NullabilityKind,
    nullabilityWeakness a ≤ nullabilityWeakness (weakerOf a k) ∧
    nullabilityWeakness k ≤ nullabilityWeakness (weakerOf a k) := by
  decide

/-- `weakerOf` is right-commutative (finite check). -/
theorem weakerOf_swap : ∀ a x y : NullabilityKind,
    weakerOf (weakerOf a x) y = weakerOf (weakerOf a y) x := by
  decide

/-- The only verdict at weakness rank zero is `NonNull` (finite
check). -/
theorem weakness_le_zero : ∀ k : NullabilityKind,
    nullabilityWeakness k ≤ nullabilityWeakness NullabilityKind.NonNull →
    k = NullabilityKind.NonNull := by
  decide

/-- The weakest-wins fold yields its seed or an element of the list. -/
theorem foldl_weakerOf_mem (ks : List NullabilityKind) (a : NullabilityKind) :
    ks.foldl weakerOf a = a ∨ ks.foldl weakerOf a ∈ ks := by
  induction ks generalizing a with
  | nil => exact Or.inl rfl
  | cons k rest ih =>
    rw [List.foldl_cons]
    rcases ih (weakerOf a k) with h | h
    · rw [h]
      by_cases hw : hasWeakerNullability k a = true
      · exact Or.inr (by simp [weakerOf, hw])
      · exact Or.inl (by simp [weakerOf, hw])
    · exact Or.inr (List.mem_cons_of_mem _ h)

/-- The weakest-wins fold dominates its seed and every element in the
weakness order. -/
theorem foldl_weakerOf_weakest (ks : List NullabilityKind) (a : NullabilityKind) :
    nullabilityWeakness a ≤ nullabilityWeakness (ks.foldl weakerOf a) ∧
    ∀ k ∈ ks, nullabilityWeakness k ≤ nullabilityWeakness (ks.foldl weakerOf a) := by
  induction ks generalizing a with
  | nil => exact ⟨Nat.le_refl _, by simp⟩
  | cons k rest ih =>
    rw [List.foldl_cons]
    refine ⟨Nat.le_trans (weakerOf_weakness a k).1 (ih (weakerOf a k)).1, ?_⟩
    intro x hx
    rcases List.mem_cons.mp hx with rfl | hx
    · exact Nat.le_trans (weakerOf_weakness a x).2 (ih (weakerOf a x)).1
    · exact (ih (weakerOf a k)).2 x hx

/-- The weakest-wins fold is invariant under permutation of the
classifications. -/
theorem foldl_weakerOf_perm {ks1 ks2 : List NullabilityKind}
    (h : ks1.Perm ks2) (a : NullabilityKind) :
    ks1.foldl weakerOf a = ks2.foldl weakerOf a :=
  h.foldl_eq' (fun x _ y _ z => weakerOf_swap z x y) a

/-- C6: the merger returns the absent optional on an empty exit-point
sequence ("no evidence", distinct from every verdict); a single
`Nullable` exit point merges to `Nullable`; one `NonNull` and one
`Nullable` exit point merge to `Nullable` (weakest wins). -/
theorem merger_no_evidence_and_examples (Ctx : ASTContext) :
    (getWeakestNullabilityForReturnStatements [] Ctx = none ∧
      (getWeakestNullabilityForReturnStatements [] Ctx).isNone = true) ∧
    (∀ rs : ReturnStmt,
      getNullabilityOfReturnStmt (some rs) Ctx = NullabilityKind.Nullable →
      getWeakestNullabilityForReturnStatements [rs] Ctx =
        some NullabilityKind.Nullable) ∧
    (∀ rs1 rs2 : ReturnStmt,
      getNullabilityOfReturnStmt (some rs1) Ctx = NullabilityKind.NonNull →
      getNullabilityOfReturnStmt (some rs2) Ctx = NullabilityKind.Nullable →
      getWeakestNullabilityForReturnStatements [rs1, rs2] Ctx =
        some NullabilityKind.Nullable) := by
  refine ⟨⟨rfl, rfl⟩, ?_, ?_⟩
  · intro rs h
    simp [getWeakestNullabilityForReturnStatements, h, hasWeakerNullability,
      nullabilityWeakness]
  · intro rs1 rs2 h1 h2
    simp [getWeakestNullabilityForReturnStatements, h1, h2,
      hasWeakerNullability, nullabilityWeakness]

/-- Witness for C6 at concrete exit points: `return @"ok";` classifies
`NonNull`, `return 0;` classifies `Nullable`, and their merge is
`Nullable`. -/
theorem merger_examples_witness :
    getWeakestNullabilityForReturnStatements [rsObjCStr, rsNilLit] ctx0 =
      some NullabilityKind.Nullable :=
  (merger_no_evidence_and_examples ctx0).2.2 rsObjCStr rsNilLit
    (by decide) (by decide)

/-- C1: on every non-empty exit-point sequence the merger returns a
classification of one of the exit points that is weakest in the order
`NonNull` (strongest) → `Unspecified` → `Nullable` (weakest), and the
result is independent of the input order. -/
theorem merger_weakest_wins (l : List ReturnStmt) (Ctx : ASTContext)
    (h : l ≠ []) :
    ∃ m, getWeakestNullabilityForReturnStatements l Ctx = some m ∧
      m ∈ l.map (fun RS => getNullabilityOfReturnStmt (some RS) Ctx) ∧
      (∀ k ∈ l.map (fun RS => getNullabilityOfReturnStmt (some RS) Ctx),
        nullabilityWeakness k ≤ nullabilityWeakness m) ∧
      (∀ l2 : List ReturnStmt, l.Perm l2 →
        getWeakestNullabilityForReturnStatements l2 Ctx =
          getWeakestNullabilityForReturnStatements l Ctx) := by
  have hne : l.isEmpty = false := by
    cases l with
    | nil => exact absurd rfl h
    | cons a as => rfl
  have hfold : getWeakestNullabilityForReturnStatements l Ctx =
      some ((l.map (fun RS => getNullabilityOfReturnStmt (some RS) Ctx)).foldl
        weakerOf NullabilityKind.NonNull) := by
    simp [getWeakestNullabilityForReturnStatements, hne, mergerFold_eq]
  refine ⟨_, hfold, ?_, ?_, ?_⟩
  · rcases foldl_weakerOf_mem
      (l.map (fun RS => getNullabilityOfReturnStmt (some RS) Ctx))
      NullabilityKind.NonNull with heq | hmem
    · rw [heq]
      cases hl : l.map (fun RS => getNullabilityOfReturnStmt (some RS) Ctx) with
      | nil => exact absurd (List.map_eq_nil_iff.mp hl) h
      | cons k0 rest =>
        have hk0 : nullabilityWeakness k0 ≤
            nullabilityWeakness NullabilityKind.NonNull := by
          have := (foldl_weakerOf_weakest
            (l.map (fun RS => getNullabilityOfReturnStmt (some RS) Ctx))
            NullabilityKind.NonNull).2 k0 (by rw [hl]; exact List.mem_cons_self k0 rest)
          rwa [heq] at this
        rw [← weakness_le_zero k0 hk0]
        exact List.mem_cons_self k0 rest
    · exact hmem
  · exact (foldl_weakerOf_weakest _ NullabilityKind.NonNull).2
  · intro l2 hperm
    have hne2 : l2.isEmpty = false := by
      cases hl2 : l2 with
      | nil => exact absurd (hl2 ▸ hperm).eq_nil h
      | cons a as => rfl
    rw [hfold]
    have hmap : (l2.map (fun RS => getNullabilityOfReturnStmt (some RS) Ctx)).Perm
        (l.map (fun RS => getNullabilityOfReturnStmt (some RS) Ctx)) :=
      (hperm.map _).symm
    simp [getWeakestNullabilityForReturnStatements, hne2, mergerFold_eq]
    exact foldl_weakerOf_perm hmap NullabilityKind.NonNull

/-- Witness for C1 at the concrete two-element exit-point sequence
`[return @"ok";, return 0;]`. -/
theorem merger_weakest_wins_witness :
    ∃ m, getWeakestNullabilityForReturnStatements [rsObjCStr, rsNilLit] ctx0 =
        some m ∧
      m ∈ [rsObjCStr, rsNilLit].map
        (fun RS => getNullabilityOfReturnStmt (some RS) ctx0) ∧
      (∀ k ∈ [rsObjCStr, rsNilLit].map
          (fun RS => getNullabilityOfReturnStmt (some RS) ctx0),
        nullabilityWeakness k ≤ nullabilityWeakness m) ∧
      (∀ l2 : List ReturnStmt, List.Perm [rsObjCStr, rsNilLit] l2 →
        getWeakestNullabilityForReturnStatements l2 ctx0 =
          getWeakestNullabilityForReturnStatements [rsObjCStr, rsNilLit] ctx0) :=
  merger_weakest_wins [rsObjCStr, rsNilLit] ctx0 (by decide)

/-- `isSomeKindOfNil` on a present expression computes exactly the
"literal zero, null-pointer constant, or null token" test. -/
theorem isSomeKindOfNil_eq (e : Expr) (Ctx : ASTContext) :
    isSomeKindOfNil (some e) Ctx = zeroOrNullToken e := by
  cases e
  case IntegerLiteral v =>
    cases v <;>
      simp [isSomeKindOfNil, zeroOrNullToken, Expr.isNullPointerConstant]
  all_goals
    simp [isSomeKindOfNil, zeroOrNullToken, Expr.isNullPointerConstant]

/-- An expression whose innermost expression is an Objective-C string
literal is not any kind of nil. -/
theorem zeroOrNullToken_false_of_objc (e : Expr)
    (h : isObjCStringLiteral (Expr.ignoreCasts e) = true) :
    zeroOrNullToken e = false := by
  induction e with
  | ImplicitCastExpr s ih =>
    have hs := ih (by simpa [Expr.ignoreCasts] using h)
    simp only [zeroOrNullToken, Expr.isNullPointerConstant] at hs ⊢
    simp only [Bool.or_eq_false_iff] at hs ⊢
    simp only [and_true, true_and]
    exact hs.1.2
  | CStyleCastExpr s ih =>
    have hs := ih (by simpa [Expr.ignoreCasts] using h)
    simp only [zeroOrNullToken, Expr.isNullPointerConstant] at hs ⊢
    simp only [Bool.or_eq_false_iff] at hs ⊢
    simp only [and_true, true_and]
    exact hs.1.2
  | ExprWithCleanups s ih =>
    simp only [zeroOrNullToken, Expr.isNullPointerConstant]
    decide
  | MaterializeTemporaryExpr s ih =>
    simp only [zeroOrNullToken, Expr.isNullPointerConstant]
    decide
  | ObjCStringLiteral s =>
    simp only [zeroOrNullToken, Expr.isNullPointerConstant]
    decide
  | _ =>
    simp_all [Expr.ignoreCasts, isObjCStringLiteral]

/-- C3 counterexample: `return "plain";` — a return of a (C) string
literal — classifies as `Unspecified`, not `NonNull`. -/
theorem cString_counterexample :
    getNullabilityOfReturnStmt (some rsCStr) ctx0 =
      NullabilityKind.Unspecified ∧
    (getNullabilityOfReturnStmt (some rsCStr) ctx0
        == NullabilityKind.NonNull) = false := by
  constructor <;> decide

/-- C3 amended: a return statement whose (possibly wrapper-stripped)
value is a literal zero, a null-pointer constant, or a recognized null
token classifies as `Nullable`; a return of an Objective-C string
literal classifies as `NonNull` (a plain C string literal is not
recognized and classifies `Unspecified`, see the counterexample). -/
theorem classifier_nil_and_objc_string (Ctx : ASTContext) :
    (∀ rv : Expr,
      zeroOrNullToken (getInnermostExpr rv) = true ∨ zeroOrNullToken rv = true →
      getNullabilityOfReturnStmt (some { retValue := some rv }) Ctx =
        NullabilityKind.Nullable) ∧
    (∀ rv : Expr, isObjCStringLiteral (getInnermostExpr rv) = true →
      getNullabilityOfReturnStmt (some { retValue := some rv }) Ctx =
        NullabilityKind.NonNull) := by
  constructor
  · intro rv h
    have hcond : (isSomeKindOfNil (some (getInnermostExpr rv)) Ctx
        || isSomeKindOfNil (some rv) Ctx) = true := by
      rcases h with h | h <;> simp [isSomeKindOfNil_eq, h]
    simp [getNullabilityOfReturnStmt, hcond]
  · intro rv h
    have hic : isObjCStringLiteral (Expr.ignoreCasts rv) = true := by
      rwa [getInnermostExpr_eq_ignoreCasts] at h
    have h1 : zeroOrNullToken rv = false := zeroOrNullToken_false_of_objc rv hic
    have h2 : zeroOrNullToken (getInnermostExpr rv) = false := by
      rw [getInnermostExpr_eq_ignoreCasts]
      cases hobj : Expr.ignoreCasts rv <;>
        simp_all [isObjCStringLiteral, zeroOrNullToken,
          Expr.isNullPointerConstant] <;>
        decide
    have hcond : (isSomeKindOfNil (some (getInnermostExpr rv)) Ctx
        || isSomeKindOfNil (some rv) Ctx) = false := by
      simp [isSomeKindOfNil_eq, h1, h2]
    simp [getNullabilityOfReturnStmt, hcond, h]

/-- Witness for C3's amended statement: a `nil` returned under an
implicit cast classifies `Nullable`, and a returned Objective-C string
literal classifies `NonNull`. -/
theorem classifier_nil_and_objc_string_witness :
    getNullabilityOfReturnStmt
        (some { retValue := some (Expr.ImplicitCastExpr Expr.GNUNullExpr) }) ctx0 =
      NullabilityKind.Nullable ∧
    getNullabilityOfReturnStmt
        (some { retValue := some (Expr.ObjCStringLiteral "ok") }) ctx0 =
      NullabilityKind.NonNull :=
  ⟨(classifier_nil_and_objc_string ctx0).1 (Expr.ImplicitCastExpr Expr.GNUNullExpr)
      (Or.inl (by decide)),
   (classifier_nil_and_objc_string ctx0).2 (Expr.ObjCStringLiteral "ok")
      (by decide)⟩

/-- C8: the driver never emits the "has no return stmts." marker — the
locals `HasBody` and `IsCanonical` stay `false` — so a canonical
definition whose body has no return statements (merge result absent)
produces no report at all, contradicting the documented contract. -/
theorem check_no_evidence_marker_unreachable :
    (declNoReturns.hasBody = true ∧
      getWeakestNullabilityForReturnStatements
        (returnStatementsForCanonicalDecl declNoReturns) ctx0 = none ∧
      NullabilityAnnotatorCheck.check resNoReturns ctx0 = []) ∧
    (∀ (Result : MatchResult) (Ctx : ASTContext),
      (NullabilityAnnotatorCheck.check Result Ctx).all
        (fun r => ! r.isNoReturnMarker) = true) := by
  refine ⟨⟨rfl, by decide, by decide⟩, ?_⟩
  intro Result Ctx
  rcases Result with ⟨vd, fd, omd⟩
  cases vd <;> cases fd <;> cases omd <;>
    simp [NullabilityAnnotatorCheck.check, CheckReport.isNoReturnMarker] <;>
    (try split) <;>
    simp [CheckReport.isNoReturnMarker]

end ClangObjc
